import Mathlib

/-!
Verification of the Reddit student-dropout ETL pipeline
(`src/reddit_etl_proj/etl_pipeline.py`).

The script is embedded shallowly:

* `clean_text` embeds the `clean_text` function (a `re.sub` of the pattern
  `http\S+|www\S+|[^a-zA-Z\s]` with `""`, followed by `.lower().strip()`);
* `sentiment_label` / `sentiment_label_viz` embed the two threshold lambdas
  (transform stage, line 79, and visualization stage, lines 152-154), with
  the float scores modelled as rationals;
* `dropout_mentioned` embeds the `str.contains(r'drop[\s-]?out|dropped out',
  case=False)` call of line 80;
* `processOne` / `processPair` / `collect` embed the extraction loop over the
  (subreddit, keyword) query matrix with its `seen_ids` set, its per-pair
  `try/except`, and the in-order `posts.append`;
* `loadBatch` embeds the MySQL loading stage: the `INSERT IGNORE` /
  `SELECT` loops for `DimSubreddit` and `DimTime` and the `executemany`
  `INSERT IGNORE` into `FactPost`, over a relational-state model keyed by
  the tables' unique columns;
* `scriptRun` embeds the script's top-level control flow (which stages sit
  inside `try/except/finally` blocks and what escapes them).
-/

namespace RedditETL

/-! ### Character classes used by the Python regexes and string methods -/

/-- The set of characters matched by Python's `\s` regex class and stripped by
`str.strip()`: the Unicode whitespace codepoints. -/
def isPySpace (c : Char) : Bool :=
  decide (c.toNat = 32 ∨ (9 ≤ c.toNat ∧ c.toNat ≤ 13) ∨ (28 ≤ c.toNat ∧ c.toNat ≤ 31)
    ∨ c.toNat = 133 ∨ c.toNat = 160 ∨ c.toNat = 5760
    ∨ (8192 ≤ c.toNat ∧ c.toNat ≤ 8202) ∨ c.toNat = 8232 ∨ c.toNat = 8233
    ∨ c.toNat = 8239 ∨ c.toNat = 8287 ∨ c.toNat = 12288)

theorem uint32_le_iff {a b : UInt32} : a ≤ b ↔ a.toNat ≤ b.toNat := Iff.rfl

theorem isUpper_iff_toNat {c : Char} : c.isUpper = true ↔ 65 ≤ c.toNat ∧ c.toNat ≤ 90 := by
  simp only [Char.isUpper, Bool.and_eq_true, decide_eq_true_eq, ge_iff_le, uint32_le_iff]
  have h65 : UInt32.toNat 65 = 65 := rfl
  have h90 : UInt32.toNat 90 = 90 := rfl
  rw [h65, h90]
  exact Iff.rfl

theorem isLower_iff_toNat {c : Char} : c.isLower = true ↔ 97 ≤ c.toNat ∧ c.toNat ≤ 122 := by
  simp only [Char.isLower, Bool.and_eq_true, decide_eq_true_eq, ge_iff_le, uint32_le_iff]
  have h97 : UInt32.toNat 97 = 97 := rfl
  have h122 : UInt32.toNat 122 = 122 := rfl
  rw [h97, h122]
  exact Iff.rfl

theorem toLower_toNat_of_isUpper {c : Char} (h : c.isUpper = true) :
    (Char.toLower c).toNat = c.toNat + 32 := by
  rw [isUpper_iff_toNat] at h
  rw [Char.toLower, if_pos ⟨h.1, h.2⟩]
  rw [Char.ofNat, dif_pos (by left; omega)]
  rfl

theorem toLower_of_not_upper {c : Char} (h : c.isUpper = false) :
    Char.toLower c = c := by
  rw [Char.toLower, if_neg]
  intro hcon
  have hup : c.isUpper = true := isUpper_iff_toNat.mpr ⟨hcon.1, hcon.2⟩
  rw [h] at hup
  exact Bool.false_ne_true hup

theorem isLower_toLower_of_isUpper {c : Char} (h : c.isUpper = true) :
    (Char.toLower c).isLower = true := by
  have h2 := toLower_toNat_of_isUpper h
  rw [isUpper_iff_toNat] at h
  rw [isLower_iff_toNat]
  omega

/-- A whitespace character is unchanged by `Char.toLower` (its codepoint is
outside the upper-case range). -/
theorem toLower_of_isPySpace {c : Char} (h : isPySpace c = true) :
    Char.toLower c = c := by
  apply toLower_of_not_upper
  unfold isPySpace at h
  rw [decide_eq_true_eq] at h
  by_contra hne
  have hup : c.isUpper = true := by
    cases hbool : c.isUpper
    · exact absurd hbool hne
    · rfl
  rw [isUpper_iff_toNat] at hup
  omega

theorem isPySpace_toLower (c : Char) : isPySpace c.toLower = isPySpace c := by
  cases hup : c.isUpper
  · rw [toLower_of_not_upper hup]
  · have h2 := toLower_toNat_of_isUpper hup
    rw [isUpper_iff_toNat] at hup
    unfold isPySpace
    rw [h2]
    simp only [decide_eq_decide]
    omega

/-! ### The transform-stage text cleaning (`clean_text`, lines 73-75)

`clean_text` does `re.sub(r"http\S+|www\S+|[^a-zA-Z\s]", "", text)` followed
by `.lower().strip()`.  `re.sub` scans left to right: at each position it
first tries `http\S+` (the literal `http` followed by one or more
non-whitespace characters, consumed greedily), then `www\S+`, then the
single-character class `[^a-zA-Z\s]`; a match is deleted and scanning resumes
after it, otherwise the character is kept. -/

/-- Does one of the two URL alternatives (`http\S+` or `www\S+`) match at the
head of `l`?  If so, return the remainder of the list after the greedy match
(everything up to the next whitespace character is consumed). -/
def matchURL : List Char → Option (List Char)
  | 'h' :: 't' :: 't' :: 'p' :: c :: cs =>
    if isPySpace c then none else some (cs.dropWhile (fun d => !isPySpace d))
  | 'w' :: 'w' :: 'w' :: c :: cs =>
    if isPySpace c then none else some (cs.dropWhile (fun d => !isPySpace d))
  | _ => none

/-- One left-to-right pass of `re.sub(r"http\S+|www\S+|[^a-zA-Z\s]", "", ·)`.
Each step consumes at least one character, so a fuel of `l.length` always
suffices; the fuel only discharges termination. -/
def subClean : Nat → List Char → List Char
  | 0, _ => []
  | fuel + 1, l =>
    match matchURL l with
    | some rest => subClean fuel rest
    | none =>
      match l with
      | [] => []
      | c :: cs => if c.isAlpha || isPySpace c then c :: subClean fuel cs else subClean fuel cs

/-- Python `str.strip()`: drop leading and trailing whitespace. -/
def pyStrip (l : List Char) : List Char :=
  ((l.dropWhile isPySpace).reverse.dropWhile isPySpace).reverse

/-- Python `str.lower()`; on the characters reachable here (ASCII letters and
whitespace, which is all `subClean` lets through) it agrees with ASCII
lowercasing. -/
def pyLower (l : List Char) : List Char :=
  l.map Char.toLower

/-- `clean_text` (lines 73-75): regex substitution, then lowercase, then trim. -/
def clean_text (s : String) : String :=
  String.mk (pyStrip (pyLower (subClean s.data.length s.data)))

/-! ### The sentiment-label lambdas (line 79 and lines 152-154)

The float sentiment score is modelled as a rational; the literal thresholds
`0.1` / `-0.1` and the probe values compare identically in both orders. -/

/-- Transform-stage label lambda (line 79):
`'positive' if x > 0.1 else 'negative' if x < -0.1 else 'neutral'`. -/
def sentiment_label (x : ℚ) : String :=
  if x > 0.1 then "positive" else if x < -0.1 then "negative" else "neutral"

/-- Visualization-stage label lambda (lines 152-154):
`'Positive' if x > 0.1 else 'Negative' if x < -0.1 else 'Neutral'`. -/
def sentiment_label_viz (x : ℚ) : String :=
  if x > 0.1 then "Positive" else if x < -0.1 then "Negative" else "Neutral"

/-! ### The keyword-mention flag (line 80)

`df['clean_content'].str.contains(r'drop[\s-]?out|dropped out', case=False,
na=False)`: true iff the pattern matches somewhere in the string;
`case=False` compiles the pattern with `re.IGNORECASE`, modelled by
lowercasing the text first (the pattern itself is lower-case ASCII). -/

/-- Does `drop[\s-]?out|dropped out` match at the head of `l`? -/
def mentionAt (l : List Char) : Bool :=
  "dropout".data.isPrefixOf l
  || ("drop".data.isPrefixOf l
      && (match l.drop 4 with
          | c :: rest => (isPySpace c || c == '-') && "out".data.isPrefixOf rest
          | [] => false))
  || "dropped out".data.isPrefixOf l

/-- `re.search` semantics for `str.contains`: does the pattern match at some
position of `l`? -/
def containsMention : List Char → Bool
  | [] => false
  | c :: cs => mentionAt (c :: cs) || containsMention cs

/-- The `dropout_mentioned` column (line 80). -/
def dropout_mentioned (s : String) : Bool :=
  containsMention (pyLower s.data)

end RedditETL


namespace RedditETL

/-! ### Data model -/

/-- The `datetime` object stored in the `date` column; only its `.year`
attribute is read by the script (line 81). -/
structure PyDatetime where
  year : Int
deriving DecidableEq

/-- One raw post dict as built in the extraction loop (lines 51-57). -/
structure RawPost where
  id : String
  content : String
  date : PyDatetime
  url : String
  subreddit : String
deriving DecidableEq

/-- One fully transformed row of the DataFrame (columns added in lines 77-81). -/
structure EnrichedPost where
  id : String
  clean_content : String
  sentiment : ℚ
  label : String
  mentioned : Bool
  year : Int
  url : String
  subreddit : String
deriving DecidableEq

/-! ### The deduplicating collector (lines 41-61)

The extraction loop keeps a `seen_ids` set and a `posts` list; for each
(subreddit, keyword) pair it iterates the search results, appending a post
dict only when its id has not been seen.  The whole per-pair iteration sits
in a `try/except` whose handler logs, sleeps, and falls through to the next
pair, leaving `seen_ids` and `posts` untouched; posts processed before a
mid-iteration exception therefore stay in the batch. -/

structure CollectState where
  seen_ids : List String
  posts : List RawPost
deriving DecidableEq

/-- Lines 49-57: process one search result. -/
def processOne (st : CollectState) (p : RawPost) : CollectState :=
  if st.seen_ids.contains p.id then st
  else { seen_ids := p.id :: st.seen_ids, posts := st.posts ++ [p] }

/-- What one `(subreddit, keyword)` query produced: the posts its generator
yielded before terminating, and whether it ended by raising (rate limit,
transport error, ...) instead of exhausting its results. -/
structure QueryOutcome where
  yielded : List RawPost
  failed : Bool
deriving DecidableEq

/-- Lines 44-61, one pair: the posts yielded before any exception are
processed; the `except` handler (line 59-61) only logs and sleeps, so a
raised exception changes no collector state and the loop moves on. -/
def processPair (st : CollectState) (q : QueryOutcome) : CollectState :=
  q.yielded.foldl processOne st

/-- The full extraction loop over the (subreddit, keyword) matrix, starting
from the empty `seen_ids` set and empty `posts` list. -/
def collect (qs : List QueryOutcome) : CollectState :=
  qs.foldl processPair { seen_ids := [], posts := [] }

/-! ### The transform stage (lines 66-81) -/

/-- Column set of `pd.DataFrame(posts)`: a DataFrame built from an empty list
of records has no columns at all, one built from post dicts has the five dict
keys. -/
def dfColumns (posts : List RawPost) : List String :=
  if posts.isEmpty then [] else ["id", "content", "date", "url", "subreddit"]

/-- Lines 77-81 applied to one row.  `analyzer` is the external
`TextBlob(x).sentiment.polarity` analyzer, deterministic in the cleaned
text. -/
def enrich (analyzer : String → ℚ) (p : RawPost) : EnrichedPost :=
  let cc := clean_text p.content
  { id := p.id
    clean_content := cc
    sentiment := analyzer cc
    label := sentiment_label (analyzer cc)
    mentioned := dropout_mentioned cc
    year := p.date.year
    url := p.url
    subreddit := p.subreddit }

inductive PyError where
  | keyError (key : String)
  | nameError (name : String)
deriving DecidableEq

/-- Lines 77-81: the column assignments.  Each `df['...'] = df['content']...`
first evaluates `df['content']`, which raises `KeyError('content')` when the
DataFrame has no such column — which is exactly the empty-batch case, since
`pd.DataFrame([])` has no columns.  On a non-empty batch the `.apply` calls
produce one enriched row per post. -/
def transformStage (analyzer : String → ℚ) (posts : List RawPost) :
    Except PyError (List EnrichedPost) :=
  if (dfColumns posts).contains "content" then
    Except.ok (posts.map (enrich analyzer))
  else
    Except.error (PyError.keyError "content")

/-! ### The dimensional load (lines 84-137)

The warehouse is modelled relationally.  `DimSubreddit` and `DimTime` rows
are `(surrogate key, natural key)` pairs whose natural-key columns are
`UNIQUE`; the surrogate key is auto-incremented.  `INSERT IGNORE` inserts
a row unless its unique key is already present.  `FactPost`'s primary key
is the natural `post_id`, so the bulk `INSERT IGNORE` skips any row whose
`post_id` already exists. -/

structure FactRow where
  post_id : String
  content : String
  url : String
  sentiment : ℚ
  dropout_mentioned : Bool
  subreddit_id : Nat
  time_id : Nat
deriving DecidableEq

structure Warehouse where
  dimSubreddit : List (Nat × String)
  dimTime : List (Nat × Int)
  factPost : List FactRow
deriving DecidableEq

def emptyWarehouse : Warehouse :=
  { dimSubreddit := [], dimTime := [], factPost := [] }

/-- Line 97: `INSERT IGNORE INTO DimSubreddit (name) VALUES (%s)`. -/
def insertIgnoreSubreddit (w : Warehouse) (name : String) : Warehouse :=
  if (w.dimSubreddit.map Prod.snd).contains name then w
  else { w with dimSubreddit := w.dimSubreddit ++ [(w.dimSubreddit.length + 1, name)] }

/-- Line 99: `SELECT subreddit_id FROM DimSubreddit WHERE name = %s` followed
by `fetchone()[0]`.  After the `INSERT IGNORE` the row always exists, so the
`0` default is never read on the script's execution paths. -/
def selectSubredditId (w : Warehouse) (name : String) : Nat :=
  ((w.dimSubreddit.find? (fun r => r.2 == name)).map Prod.fst).getD 0

/-- Line 106: `INSERT IGNORE INTO DimTime (year) VALUES (%s)`. -/
def insertIgnoreTime (w : Warehouse) (y : Int) : Warehouse :=
  if (w.dimTime.map Prod.snd).contains y then w
  else { w with dimTime := w.dimTime ++ [(w.dimTime.length + 1, y)] }

/-- Line 108: `SELECT time_id FROM DimTime WHERE year = %s`. -/
def selectTimeId (w : Warehouse) (y : Int) : Nat :=
  ((w.dimTime.find? (fun r => r.2 == y)).map Prod.fst).getD 0

/-- `pandas.Series.unique()`: distinct values in order of first appearance. -/
def seriesUnique {α : Type} [BEq α] (l : List α) : List α :=
  (l.foldl (fun acc x => if acc.contains x then acc else acc ++ [x]) [])

/-- Lines 95-100: the `DimSubreddit` insert-then-select loop, building
`subreddit_map` entry by entry. -/
def resolveSubreddits : Warehouse → List String → Warehouse × List (String × Nat)
  | w, [] => (w, [])
  | w, sr :: rest =>
    let w1 := insertIgnoreSubreddit w sr
    let r := resolveSubreddits w1 rest
    (r.1, (sr, selectSubredditId w1 sr) :: r.2)

/-- Lines 103-109: the `DimTime` insert-then-select loop, building
`year_map` entry by entry. -/
def resolveYears : Warehouse → List Int → Warehouse × List (Int × Nat)
  | w, [] => (w, [])
  | w, y :: rest =>
    let w1 := insertIgnoreTime w y
    let r := resolveYears w1 rest
    (r.1, (y, selectTimeId w1 y) :: r.2)

/-- Python dict lookup `map[key]` for the two surrogate-key maps; every key
looked up was put in the map by the resolution loop. -/
def lookupMap {α : Type} [BEq α] (m : List (α × Nat)) (k : α) : Nat :=
  ((m.find? (fun e => e.1 == k)).map Prod.snd).getD 0

/-- Lines 112-119: one `fact_values` tuple. -/
def mkFactRow (smap : List (String × Nat)) (ymap : List (Int × Nat))
    (e : EnrichedPost) : FactRow :=
  { post_id := e.id
    content := e.clean_content
    url := e.url
    sentiment := e.sentiment
    dropout_mentioned := e.mentioned
    subreddit_id := lookupMap smap e.subreddit
    time_id := lookupMap ymap e.year }

/-- One row of the `executemany` bulk `INSERT IGNORE INTO FactPost`:
inserted unless a fact with the same `post_id` primary key exists; the
returned flag feeds `cursor.rowcount`. -/
def insertIgnoreFact (w : Warehouse) (f : FactRow) : Warehouse × Bool :=
  if (w.factPost.map FactRow.post_id).contains f.post_id then (w, false)
  else ({ w with factPost := w.factPost ++ [f] }, true)

/-- Lines 121-127: the bulk insert, row by row in batch order; the second
component is `cursor.rowcount`, the number of rows actually inserted. -/
def executemanyFacts : Warehouse → List FactRow → Warehouse × Nat
  | w, [] => (w, 0)
  | w, f :: fs =>
    let r := insertIgnoreFact w f
    let rest := executemanyFacts r.1 fs
    (rest.1, (if r.2 then 1 else 0) + rest.2)

/-- Lines 94-129: the whole load step over one enriched batch — resolve the
subreddit dimension over `df['subreddit'].unique()`, resolve the time
dimension over `df['year'].unique()`, build `fact_values` row by row, then
bulk-insert.  Returns the new warehouse and the reported insert count. -/
def loadBatch (w : Warehouse) (batch : List EnrichedPost) : Warehouse × Nat :=
  let s := resolveSubreddits w (seriesUnique (batch.map EnrichedPost.subreddit))
  let t := resolveYears s.1 (seriesUnique (batch.map EnrichedPost.year))
  let fact_values := batch.map (mkFactRow s.2 t.2)
  executemanyFacts t.1 fact_values

end RedditETL

namespace RedditETL

/-! ### Top-level control flow of one script run

Which errors can escape the script: the extraction loop catches per-pair
errors (modelled inside `collect`); the transform assignments (lines 77-81)
sit in no `try` block; the load stage (lines 84-137) is a
`try/except/finally` whose `finally` evaluates `conn.is_connected()` — a
`NameError` when `mysql.connector.connect` itself raised, since `conn` was
never bound; the visualization stage (lines 140-208) is a `try/except` that
swallows every error.  A Python script that finishes without an uncaught
exception exits with status 0; the script never calls `sys.exit`. -/

/-- Reference form of first-occurrence deduplication relative to an initial
seen set, used to characterize the collector's fold. -/
def dedupFirstFrom (seen : List String) : List RawPost → List RawPost
  | [] => []
  | p :: ps =>
    if seen.contains p.id then dedupFirstFrom seen ps
    else p :: dedupFirstFrom (p.id :: seen) ps

inductive RunOutcome where
  | completed (exitCode : Nat)
  | uncaught (e : PyError)
deriving DecidableEq

/-- How the database behaves during one run: whether
`mysql.connector.connect` succeeds, and whether some later cursor operation
raises (caught by the `except` clause of line 131). -/
structure DbBehavior where
  connectOk : Bool
  loadFails : Bool
deriving DecidableEq

/-- The script from the transform stage down (the collected batch and the
database behaviour are inputs).  On a transform error nothing catches the
exception.  When the connect succeeds, every load error is caught and logged
(line 131-132), the `finally` closes the connection, the visualization
`try/except` swallows its own errors, and the interpreter exits normally
with status 0.  When the connect fails, the `except` logs it but the
`finally` block's `conn.is_connected()` raises an uncaught `NameError`. -/
def scriptRun (analyzer : String → ℚ) (posts : List RawPost) (db : DbBehavior) :
    RunOutcome :=
  match transformStage analyzer posts with
  | Except.error e => RunOutcome.uncaught e
  | Except.ok _batch =>
    if db.connectOk then
      RunOutcome.completed 0
    else
      RunOutcome.uncaught (PyError.nameError "conn")

end RedditETL

namespace RedditETL

/-! ### Sentiment-label lemmas -/

theorem sentiment_label_pos_iff (x : ℚ) :
    sentiment_label x = "positive" ↔ x > 0.1 := by
  unfold sentiment_label
  split_ifs with h1 h2
  · simp [h1]
  · constructor
    · intro h
      exact absurd h (by decide)
    · intro h
      exact absurd h h1
  · constructor
    · intro h
      exact absurd h (by decide)
    · intro h
      exact absurd h h1

theorem sentiment_label_neg_iff (x : ℚ) :
    sentiment_label x = "negative" ↔ x < -0.1 := by
  unfold sentiment_label
  split_ifs with h1 h2
  · constructor
    · intro h
      exact absurd h (by decide)
    · intro h
      exfalso
      have : (-0.1 : ℚ) < 0.1 := by norm_num
      linarith
  · simp [h2]
  · constructor
    · intro h
      exact absurd h (by decide)
    · intro h
      exact absurd h h2

theorem sentiment_label_neutral_iff (x : ℚ) :
    sentiment_label x = "neutral" ↔ ¬x > 0.1 ∧ ¬x < -0.1 := by
  unfold sentiment_label
  split_ifs with h1 h2
  · constructor
    · intro h
      exact absurd h (by decide)
    · intro h
      exact absurd h1 h.1
  · constructor
    · intro h
      exact absurd h (by decide)
    · intro h
      exact absurd h2 h.2
  · simp [h1, h2]

end RedditETL

namespace RedditETL

/-- C6: the sentiment label is `positive` exactly when the score exceeds 0.1,
`negative` exactly when it is below -0.1, and `neutral` otherwise; the
boundary scores 0.1 and -0.1 map to `neutral`, 0.1000001 to `positive` and
-0.1000001 to `negative`. -/
theorem sentiment_label_thresholds :
    (∀ x : ℚ, sentiment_label x = "positive" ↔ x > 0.1)
    ∧ (∀ x : ℚ, sentiment_label x = "negative" ↔ x < -0.1)
    ∧ (∀ x : ℚ, sentiment_label x = "neutral" ↔ ¬x > 0.1 ∧ ¬x < -0.1)
    ∧ sentiment_label 0.1 = "neutral"
    ∧ sentiment_label (-0.1) = "neutral"
    ∧ sentiment_label 0.1000001 = "positive"
    ∧ sentiment_label (-0.1000001) = "negative" := by
  refine ⟨sentiment_label_pos_iff, sentiment_label_neg_iff, sentiment_label_neutral_iff, ?_, ?_, ?_, ?_⟩
  · rw [sentiment_label_neutral_iff]
    norm_num
  · rw [sentiment_label_neutral_iff]
    norm_num
  · rw [sentiment_label_pos_iff]
    norm_num
  · rw [sentiment_label_neg_iff]
    norm_num

/-- C10: the transform-stage label lambda (line 79) and the
visualization-stage label lambda (lines 152-154) use identical thresholds,
so for every score the recomputed label agrees with the stored one up to
capitalization: lowercasing the visualization label gives exactly the
transform label. -/
theorem viz_label_agrees (x : ℚ) :
    String.mk (pyLower (sentiment_label_viz x).data) = sentiment_label x := by
  unfold sentiment_label sentiment_label_viz
  split_ifs <;> decide

/-- C10 witness: the agreement evaluated at the concrete score 0.3. -/
theorem viz_label_agrees_witness :
    String.mk (pyLower (sentiment_label_viz 0.3).data) = sentiment_label 0.3 :=
  viz_label_agrees 0.3

/-- C3 (code bug): on an empty collected batch the transform stage raises an
uncaught `KeyError('content')` — `pd.DataFrame([])` has no columns, so
`df['content']` on line 77 fails — instead of completing the run without
error as the spec requires. -/
theorem transform_raises_on_empty_batch :
    transformStage (fun _ => 0) [] = Except.error (PyError.keyError "content") := rfl

/-- C4 counterexample: an unhandled fault does escape the top-level run
boundary — with an empty collected batch, the `KeyError` from the transform
stage (which sits in no `try` block) propagates uncaught. -/
theorem run_uncaught_on_empty_batch :
    scriptRun (fun _ => 0) [] { connectOk := true, loadFails := false }
      = RunOutcome.uncaught (PyError.keyError "content") := rfl

/-- C4 amended: errors inside the load `try` block after a successful
connect are caught and logged, and the run then completes — but with exit
status 0, not a non-zero status; a failed connect leads to an uncaught
`NameError` from the `finally` block (`conn` is unbound); and a
transform-stage error propagates uncaught. -/
theorem run_error_handling (analyzer : String → ℚ) (p : RawPost)
    (ps : List RawPost) (b : Bool) :
    scriptRun analyzer (p :: ps) { connectOk := true, loadFails := b }
        = RunOutcome.completed 0
    ∧ scriptRun analyzer (p :: ps) { connectOk := false, loadFails := b }
        = RunOutcome.uncaught (PyError.nameError "conn")
    ∧ scriptRun analyzer [] { connectOk := true, loadFails := b }
        = RunOutcome.uncaught (PyError.keyError "content") :=
  ⟨rfl, rfl, rfl⟩

/-- C5 counterexample: cleaning the spec's example input does not give
`"check now"` — deleting the URL token leaves the whitespace on both of its
sides, so the cleaned text has two consecutive spaces. -/
theorem clean_text_example_ne :
    clean_text "Check http://x.co NOW!! 2024" ≠ "check now" := by decide

/-- C5 amended: the cleaning strips URL tokens and every character outside
the alphabetic/whitespace set, lowercases and trims; for the raw input
`"Check http://x.co NOW!! 2024"` the cleaned output is exactly
`"check  now"` (with the two spaces left by removing the URL token). -/
theorem clean_text_example :
    clean_text "Check http://x.co NOW!! 2024" = "check  now" := by decide

end RedditETL

namespace RedditETL

/-! ### Mention-flag lemmas -/

theorem isPrefixOf_eq_true_iff {l1 l2 : List Char} :
    l1.isPrefixOf l2 = true ↔ l1 <+: l2 :=
  List.isPrefixOf_iff_prefix

theorem containsMention_iff (l : List Char) :
    containsMention l = true ↔ ∃ t, t <:+ l ∧ mentionAt t = true := by
  induction l with
  | nil =>
    constructor
    · intro h
      exact absurd h (by decide)
    · rintro ⟨t, hs, hm⟩
      rw [List.suffix_nil] at hs
      subst hs
      exact absurd hm (by decide)
  | cons c cs ih =>
    show (mentionAt (c :: cs) || containsMention cs) = true ↔ _
    rw [Bool.or_eq_true, ih]
    constructor
    · rintro (h | ⟨t, hs, hm⟩)
      · exact ⟨c :: cs, List.suffix_rfl, h⟩
      · exact ⟨t, hs.trans (List.suffix_cons c cs), hm⟩
    · rintro ⟨t, hs, hm⟩
      rcases List.suffix_cons_iff.mp hs with h | h
      · subst h
        exact Or.inl hm
      · exact Or.inr ⟨t, h, hm⟩

theorem mentionAt_middle_iff (l : List Char) :
    ("drop".data.isPrefixOf l
      && (match l.drop 4 with
          | c :: rest => (isPySpace c || c == '-') && "out".data.isPrefixOf rest
          | [] => false)) = true
    ↔ ∃ c, (isPySpace c || (c == '-')) = true
        ∧ ('d' :: 'r' :: 'o' :: 'p' :: c :: 'o' :: 'u' :: 't' :: []) <+: l := by
  rw [Bool.and_eq_true]
  constructor
  · rintro ⟨hdrop, hrest⟩
    rw [isPrefixOf_eq_true_iff] at hdrop
    obtain ⟨t, ht⟩ := hdrop
    have hdropfour : l.drop 4 = t := by
      rw [← ht]
      rfl
    rw [hdropfour] at hrest
    cases t with
    | nil => exact absurd hrest (by decide)
    | cons c rest =>
      rw [show (match (c :: rest : List Char) with
          | c :: rest => (isPySpace c || c == '-') && "out".data.isPrefixOf rest
          | [] => false) = ((isPySpace c || c == '-') && "out".data.isPrefixOf rest) from rfl,
        Bool.and_eq_true] at hrest
      obtain ⟨hsep, hout⟩ := hrest
      rw [isPrefixOf_eq_true_iff] at hout
      obtain ⟨u, hu⟩ := hout
      refine ⟨c, hsep, u, ?_⟩
      rw [← ht, ← hu]
      rfl
  · rintro ⟨c, hsep, u, hu⟩
    rw [← hu]
    constructor
    · rw [isPrefixOf_eq_true_iff]
      exact ⟨c :: 'o' :: 'u' :: 't' :: u, rfl⟩
    · rw [show (('d' :: 'r' :: 'o' :: 'p' :: c :: 'o' :: 'u' :: 't' :: []) ++ u).drop 4
          = c :: 'o' :: 'u' :: 't' :: u from rfl]
      rw [show (match (c :: 'o' :: 'u' :: 't' :: u : List Char) with
          | c :: rest => (isPySpace c || c == '-') && "out".data.isPrefixOf rest
          | [] => false) = ((isPySpace c || c == '-') && "out".data.isPrefixOf ('o' :: 'u' :: 't' :: u)) from rfl]
      rw [Bool.and_eq_true]
      refine ⟨hsep, ?_⟩
      rw [isPrefixOf_eq_true_iff]
      exact ⟨u, rfl⟩

theorem mentionAt_iff (l : List Char) :
    mentionAt l = true ↔
      ("dropout".data <+: l)
      ∨ (∃ c, (isPySpace c || (c == '-')) = true
          ∧ ('d' :: 'r' :: 'o' :: 'p' :: c :: 'o' :: 'u' :: 't' :: []) <+: l)
      ∨ ("dropped out".data <+: l) := by
  unfold mentionAt
  rw [Bool.or_eq_true, Bool.or_eq_true, isPrefixOf_eq_true_iff, isPrefixOf_eq_true_iff,
    mentionAt_middle_iff, or_assoc]

end RedditETL

namespace RedditETL

/-- C7: the keyword-mention flag on a text is true exactly when the
(case-folded) text contains `drop` followed optionally by one whitespace or
hyphen and then `out`, or contains `dropped out`; in particular
`"students drop out of school"` and `"dropout rate rising"` are flagged and
`"a dropped class"` is not. -/
theorem dropout_mention_spec :
    (∀ s : String, dropout_mentioned s = true ↔
      ("dropout".data <:+: pyLower s.data)
      ∨ (∃ c, (isPySpace c || (c == '-')) = true
          ∧ ('d' :: 'r' :: 'o' :: 'p' :: c :: 'o' :: 'u' :: 't' :: []) <:+: pyLower s.data)
      ∨ ("dropped out".data <:+: pyLower s.data))
    ∧ dropout_mentioned "students drop out of school" = true
    ∧ dropout_mentioned "dropout rate rising" = true
    ∧ dropout_mentioned "a dropped class" = false := by
  refine ⟨?_, by decide, by decide, by decide⟩
  intro s
  unfold dropout_mentioned
  rw [containsMention_iff]
  constructor
  · rintro ⟨t, hsuf, hm⟩
    rcases (mentionAt_iff t).mp hm with h | ⟨c, hc, h⟩ | h
    · exact Or.inl (List.infix_iff_prefix_suffix.mpr ⟨t, h, hsuf⟩)
    · exact Or.inr (Or.inl ⟨c, hc, List.infix_iff_prefix_suffix.mpr ⟨t, h, hsuf⟩⟩)
    · exact Or.inr (Or.inr (List.infix_iff_prefix_suffix.mpr ⟨t, h, hsuf⟩))
  · rintro (h | ⟨c, hc, h⟩ | h)
    · obtain ⟨t, hpre, hsuf⟩ := List.infix_iff_prefix_suffix.mp h
      exact ⟨t, hsuf, (mentionAt_iff t).mpr (Or.inl hpre)⟩
    · obtain ⟨t, hpre, hsuf⟩ := List.infix_iff_prefix_suffix.mp h
      exact ⟨t, hsuf, (mentionAt_iff t).mpr (Or.inr (Or.inl ⟨c, hc, hpre⟩))⟩
    · obtain ⟨t, hpre, hsuf⟩ := List.infix_iff_prefix_suffix.mp h
      exact ⟨t, hsuf, (mentionAt_iff t).mpr (Or.inr (Or.inr hpre))⟩

end RedditETL

namespace RedditETL

/-! ### Collector lemmas -/

theorem dedupFirstFrom_nil (seen : List String) : dedupFirstFrom seen [] = [] := rfl

theorem dedupFirstFrom_cons (seen : List String) (p : RawPost) (ps : List RawPost) :
    dedupFirstFrom seen (p :: ps)
      = if seen.contains p.id then dedupFirstFrom seen ps
        else p :: dedupFirstFrom (p.id :: seen) ps := rfl

theorem foldl_processOne_spec (l : List RawPost) (st : CollectState) :
    (l.foldl processOne st).posts = st.posts ++ dedupFirstFrom st.seen_ids l
    ∧ ∀ x, (l.foldl processOne st).seen_ids.contains x = true
        ↔ (st.seen_ids.contains x = true ∨ x ∈ l.map RawPost.id) := by
  induction l generalizing st with
  | nil =>
    refine ⟨by simp [dedupFirstFrom_nil], ?_⟩
    intro x
    simp
  | cons p ps ih =>
    rw [List.foldl_cons]
    by_cases hc : st.seen_ids.contains p.id = true
    · have hstep : processOne st p = st := by
        unfold processOne
        rw [if_pos hc]
      rw [hstep]
      obtain ⟨h1, h2⟩ := ih st
      refine ⟨?_, ?_⟩
      · rw [h1, dedupFirstFrom_cons, if_pos hc]
      · intro x
        rw [h2 x]
        constructor
        · rintro (h | h)
          · exact Or.inl h
          · exact Or.inr (by simp [h])
        · rintro (h | h)
          · exact Or.inl h
          · rw [List.map_cons, List.mem_cons] at h
            rcases h with h | h
            · subst h
              exact Or.inl hc
            · exact Or.inr h
    · have hstep : processOne st p
          = { seen_ids := p.id :: st.seen_ids, posts := st.posts ++ [p] } := by
        unfold processOne
        rw [if_neg hc]
      rw [hstep]
      obtain ⟨h1, h2⟩ :=
        ih { seen_ids := p.id :: st.seen_ids, posts := st.posts ++ [p] }
      refine ⟨?_, ?_⟩
      · rw [h1, dedupFirstFrom_cons, if_neg hc]
        simp
      · intro x
        rw [h2 x]
        simp only [List.contains_cons, Bool.or_eq_true, beq_iff_eq, List.map_cons,
          List.mem_cons]
        tauto

theorem processPair_posts (st : CollectState) (q : QueryOutcome) :
    (processPair st q).posts = st.posts ++ dedupFirstFrom st.seen_ids q.yielded :=
  (foldl_processOne_spec q.yielded st).1

/-- The collector's fold over query outcomes equals the flat fold over every
yielded post in order. -/
theorem collect_eq_foldl_flatten (qs : List QueryOutcome) :
    collect qs
      = ((qs.map QueryOutcome.yielded).flatten).foldl processOne
          { seen_ids := [], posts := [] } := by
  unfold collect
  generalize ({ seen_ids := [], posts := [] } : CollectState) = st
  induction qs generalizing st with
  | nil => simp
  | cons q qs ih =>
    rw [List.foldl_cons, List.map_cons, List.flatten_cons, List.foldl_append]
    exact ih (processPair st q)

end RedditETL

namespace RedditETL

theorem dedupFirstFrom_mem_iff (l : List RawPost) :
    ∀ (seen : List String) (i : String),
      i ∈ (dedupFirstFrom seen l).map RawPost.id
        ↔ i ∈ l.map RawPost.id ∧ seen.contains i = false := by
  induction l with
  | nil =>
    intro seen i
    simp [dedupFirstFrom_nil]
  | cons p ps ih =>
    intro seen i
    rw [dedupFirstFrom_cons]
    by_cases hc : seen.contains p.id = true
    · rw [if_pos hc, ih seen i, List.map_cons, List.mem_cons]
      constructor
      · rintro ⟨h1, h2⟩
        exact ⟨Or.inr h1, h2⟩
      · rintro ⟨h1, h2⟩
        rcases h1 with h1 | h1
        · subst h1
          rw [hc] at h2
          cases h2
        · exact ⟨h1, h2⟩
    · rw [if_neg hc, List.map_cons, List.mem_cons, List.map_cons, List.mem_cons,
        ih (p.id :: seen) i]
      rw [Bool.not_eq_true] at hc
      by_cases hip : i = p.id
      · subst hip
        have hns : p.id ∉ seen := by simpa using hc
        simp [hc, hns]
      · have hcons : (p.id :: seen).contains i = seen.contains i := by
          simp only [List.contains_cons, Bool.or_eq_true, beq_iff_eq]
          simp [hip]
        rw [hcons]
        tauto

theorem dedupFirstFrom_nodup (l : List RawPost) :
    ∀ seen : List String, ((dedupFirstFrom seen l).map RawPost.id).Nodup := by
  induction l with
  | nil =>
    intro seen
    simp [dedupFirstFrom_nil]
  | cons p ps ih =>
    intro seen
    rw [dedupFirstFrom_cons]
    by_cases hc : seen.contains p.id = true
    · rw [if_pos hc]
      exact ih seen
    · rw [if_neg hc, List.map_cons, List.nodup_cons]
      refine ⟨?_, ih (p.id :: seen)⟩
      intro hmem
      rw [dedupFirstFrom_mem_iff] at hmem
      have : (p.id :: seen).contains p.id = true := by
        simp
      rw [this] at hmem
      cases hmem.2

theorem dedupFirstFrom_find? (l : List RawPost) :
    ∀ (seen : List String) (i : String), seen.contains i = false →
      (dedupFirstFrom seen l).find? (fun p => p.id == i)
        = l.find? (fun p => p.id == i) := by
  induction l with
  | nil =>
    intro seen i _
    rw [dedupFirstFrom_nil]
  | cons p ps ih =>
    intro seen i hi
    rw [dedupFirstFrom_cons]
    by_cases hc : seen.contains p.id = true
    · rw [if_pos hc]
      have hne : (p.id == i) = false := by
        rw [beq_eq_false_iff_ne]
        intro h
        rw [h, hi] at hc
        cases hc
      rw [List.find?_cons, hne, ih seen i hi]
    · rw [if_neg hc, List.find?_cons, List.find?_cons]
      cases hbeq : (p.id == i)
      · have hcons : (p.id :: seen).contains i = false := by
          rw [List.contains_cons]
          rw [beq_eq_false_iff_ne] at hbeq
          have hne2 : (i == p.id) = false := by
            rw [beq_eq_false_iff_ne]
            intro h
            exact hbeq h.symm
          rw [hne2, Bool.false_or]
          exact hi
        exact ih (p.id :: seen) i hcons
      · rfl

end RedditETL

namespace RedditETL

theorem collect_posts_eq (qs : List QueryOutcome) :
    (collect qs).posts
      = dedupFirstFrom [] ((qs.map QueryOutcome.yielded).flatten) := by
  rw [collect_eq_foldl_flatten]
  have h := (foldl_processOne_spec ((qs.map QueryOutcome.yielded).flatten)
    { seen_ids := [], posts := [] }).1
  simpa using h

/-- C2: across the whole (collection, term) query matrix the collector's
output batch carries pairwise distinct post identifiers; an identifier
appears in the batch iff it appears somewhere in the raw input stream, in
which case it appears exactly once; and the entry kept for an identifier is
the first raw post with that identifier, in input order. -/
theorem collector_dedup (qs : List QueryOutcome) :
    ((collect qs).posts.map RawPost.id).Nodup
    ∧ (∀ i, i ∈ (collect qs).posts.map RawPost.id
        ↔ i ∈ ((qs.map QueryOutcome.yielded).flatten).map RawPost.id)
    ∧ (∀ i, i ∈ ((qs.map QueryOutcome.yielded).flatten).map RawPost.id
        → ((collect qs).posts.map RawPost.id).count i = 1)
    ∧ (∀ i, (collect qs).posts.find? (fun p => p.id == i)
        = ((qs.map QueryOutcome.yielded).flatten).find? (fun p => p.id == i)) := by
  have hposts := collect_posts_eq qs
  have hnodup : ((collect qs).posts.map RawPost.id).Nodup := by
    rw [hposts]
    exact dedupFirstFrom_nodup _ []
  have hmem : ∀ i, i ∈ (collect qs).posts.map RawPost.id
      ↔ i ∈ ((qs.map QueryOutcome.yielded).flatten).map RawPost.id := by
    intro i
    rw [hposts, dedupFirstFrom_mem_iff]
    simp
  refine ⟨hnodup, hmem, ?_, ?_⟩
  · intro i hi
    exact List.count_eq_one_of_mem hnodup ((hmem i).mpr hi)
  · intro i
    rw [hposts]
    exact dedupFirstFrom_find? _ [] i rfl

theorem processPair_posts_isPre (st : CollectState) (q : QueryOutcome) :
    st.posts <+: (processPair st q).posts :=
  ⟨dedupFirstFrom st.seen_ids q.yielded, (processPair_posts st q).symm⟩

theorem foldl_processPair_posts_isPre (qs : List QueryOutcome) :
    ∀ st : CollectState, st.posts <+: (qs.foldl processPair st).posts := by
  induction qs with
  | nil =>
    intro st
    exact List.prefix_rfl
  | cons q qs ih =>
    intro st
    rw [List.foldl_cons]
    exact (processPair_posts_isPre st q).trans (ih (processPair st q))

/-- C8: an upstream failure inside one (collection, term) pair is absorbed
by that pair's `except` handler — iteration resumes with the remaining
pairs from exactly the state the failing pair left behind; the error flag
itself changes no collector state; and every post accepted before the
failing pair, as well as the posts the failing pair yielded before raising,
stays in the final batch. -/
theorem collector_failure_isolated (pre : List QueryOutcome) (failq : QueryOutcome)
    (rest : List QueryOutcome) :
    collect (pre ++ failq :: rest)
        = rest.foldl processPair (processPair (collect pre) failq)
    ∧ processPair (collect pre) failq
        = processPair (collect pre) { yielded := failq.yielded, failed := false }
    ∧ (collect pre).posts <+: (processPair (collect pre) failq).posts
    ∧ (processPair (collect pre) failq).posts
        <+: (collect (pre ++ failq :: rest)).posts := by
  have hsplit : collect (pre ++ failq :: rest)
      = rest.foldl processPair (processPair (collect pre) failq) := by
    unfold collect
    rw [List.foldl_append, List.foldl_cons]
  refine ⟨hsplit, rfl, processPair_posts_isPre _ _, ?_⟩
  rw [hsplit]
  exact foldl_processPair_posts_isPre rest (processPair (collect pre) failq)

end RedditETL

namespace RedditETL

/-! ### Loader lemmas: the `INSERT IGNORE` operations are idempotent -/

theorem insertIgnoreSubreddit_dimTime (w : Warehouse) (n : String) :
    (insertIgnoreSubreddit w n).dimTime = w.dimTime := by
  unfold insertIgnoreSubreddit
  split <;> rfl

theorem insertIgnoreSubreddit_factPost (w : Warehouse) (n : String) :
    (insertIgnoreSubreddit w n).factPost = w.factPost := by
  unfold insertIgnoreSubreddit
  split <;> rfl

theorem insertIgnoreSubreddit_contains_self (w : Warehouse) (n : String) :
    ((insertIgnoreSubreddit w n).dimSubreddit.map Prod.snd).contains n = true := by
  unfold insertIgnoreSubreddit
  split
  · assumption
  · simp

theorem insertIgnoreSubreddit_contains_mono (w : Warehouse) (n m : String)
    (h : (w.dimSubreddit.map Prod.snd).contains m = true) :
    ((insertIgnoreSubreddit w n).dimSubreddit.map Prod.snd).contains m = true := by
  unfold insertIgnoreSubreddit
  split
  · exact h
  · simp at h ⊢
    exact Or.inl h

theorem insertIgnoreSubreddit_noop (w : Warehouse) (n : String)
    (h : (w.dimSubreddit.map Prod.snd).contains n = true) :
    insertIgnoreSubreddit w n = w := by
  unfold insertIgnoreSubreddit
  rw [if_pos h]

theorem insertIgnoreTime_dimSubreddit (w : Warehouse) (y : Int) :
    (insertIgnoreTime w y).dimSubreddit = w.dimSubreddit := by
  unfold insertIgnoreTime
  split <;> rfl

theorem insertIgnoreTime_factPost (w : Warehouse) (y : Int) :
    (insertIgnoreTime w y).factPost = w.factPost := by
  unfold insertIgnoreTime
  split <;> rfl

theorem insertIgnoreTime_contains_self (w : Warehouse) (y : Int) :
    ((insertIgnoreTime w y).dimTime.map Prod.snd).contains y = true := by
  unfold insertIgnoreTime
  split
  · assumption
  · simp

theorem insertIgnoreTime_contains_mono (w : Warehouse) (y z : Int)
    (h : (w.dimTime.map Prod.snd).contains z = true) :
    ((insertIgnoreTime w y).dimTime.map Prod.snd).contains z = true := by
  unfold insertIgnoreTime
  split
  · exact h
  · simp at h ⊢
    exact Or.inl h

theorem insertIgnoreTime_noop (w : Warehouse) (y : Int)
    (h : (w.dimTime.map Prod.snd).contains y = true) :
    insertIgnoreTime w y = w := by
  unfold insertIgnoreTime
  rw [if_pos h]

theorem insertIgnoreFact_dimSubreddit (w : Warehouse) (f : FactRow) :
    (insertIgnoreFact w f).1.dimSubreddit = w.dimSubreddit := by
  unfold insertIgnoreFact
  split <;> rfl

theorem insertIgnoreFact_dimTime (w : Warehouse) (f : FactRow) :
    (insertIgnoreFact w f).1.dimTime = w.dimTime := by
  unfold insertIgnoreFact
  split <;> rfl

theorem insertIgnoreFact_contains_self (w : Warehouse) (f : FactRow) :
    ((insertIgnoreFact w f).1.factPost.map FactRow.post_id).contains f.post_id = true := by
  unfold insertIgnoreFact
  split
  · assumption
  · simp

theorem insertIgnoreFact_contains_mono (w : Warehouse) (f : FactRow) (i : String)
    (h : (w.factPost.map FactRow.post_id).contains i = true) :
    ((insertIgnoreFact w f).1.factPost.map FactRow.post_id).contains i = true := by
  unfold insertIgnoreFact
  split
  · exact h
  · simp at h ⊢
    exact Or.inl h

theorem insertIgnoreFact_noop (w : Warehouse) (f : FactRow)
    (h : (w.factPost.map FactRow.post_id).contains f.post_id = true) :
    insertIgnoreFact w f = (w, false) := by
  unfold insertIgnoreFact
  rw [if_pos h]

end RedditETL

namespace RedditETL

theorem resolveSubreddits_dimTime (names : List String) :
    ∀ w : Warehouse, (resolveSubreddits w names).1.dimTime = w.dimTime := by
  induction names with
  | nil =>
    intro w
    rfl
  | cons sr rest ih =>
    intro w
    show (resolveSubreddits (insertIgnoreSubreddit w sr) rest).1.dimTime = w.dimTime
    rw [ih (insertIgnoreSubreddit w sr), insertIgnoreSubreddit_dimTime]

theorem resolveSubreddits_factPost (names : List String) :
    ∀ w : Warehouse, (resolveSubreddits w names).1.factPost = w.factPost := by
  induction names with
  | nil =>
    intro w
    rfl
  | cons sr rest ih =>
    intro w
    show (resolveSubreddits (insertIgnoreSubreddit w sr) rest).1.factPost = w.factPost
    rw [ih (insertIgnoreSubreddit w sr), insertIgnoreSubreddit_factPost]

theorem resolveSubreddits_contains_mono (names : List String) :
    ∀ (w : Warehouse) (m : String),
      (w.dimSubreddit.map Prod.snd).contains m = true →
      ((resolveSubreddits w names).1.dimSubreddit.map Prod.snd).contains m = true := by
  induction names with
  | nil =>
    intro w m h
    exact h
  | cons sr rest ih =>
    intro w m h
    exact ih (insertIgnoreSubreddit w sr) m (insertIgnoreSubreddit_contains_mono w sr m h)

theorem resolveSubreddits_contains (names : List String) :
    ∀ (w : Warehouse) (n : String), n ∈ names →
      ((resolveSubreddits w names).1.dimSubreddit.map Prod.snd).contains n = true := by
  induction names with
  | nil =>
    intro w n h
    cases h
  | cons sr rest ih =>
    intro w n h
    rcases List.mem_cons.mp h with h | h
    · subst h
      exact resolveSubreddits_contains_mono rest (insertIgnoreSubreddit w n) n
        (insertIgnoreSubreddit_contains_self w n)
    · exact ih (insertIgnoreSubreddit w sr) n h

theorem resolveSubreddits_noop (names : List String) :
    ∀ w : Warehouse,
      (∀ n ∈ names, (w.dimSubreddit.map Prod.snd).contains n = true) →
      (resolveSubreddits w names).1 = w := by
  induction names with
  | nil =>
    intro w _
    rfl
  | cons sr rest ih =>
    intro w h
    show (resolveSubreddits (insertIgnoreSubreddit w sr) rest).1 = w
    rw [insertIgnoreSubreddit_noop w sr (h sr (List.mem_cons_self sr rest))]
    exact ih w (fun n hn => h n (List.mem_cons_of_mem sr hn))

theorem resolveYears_dimSubreddit (years : List Int) :
    ∀ w : Warehouse, (resolveYears w years).1.dimSubreddit = w.dimSubreddit := by
  induction years with
  | nil =>
    intro w
    rfl
  | cons y rest ih =>
    intro w
    show (resolveYears (insertIgnoreTime w y) rest).1.dimSubreddit = w.dimSubreddit
    rw [ih (insertIgnoreTime w y), insertIgnoreTime_dimSubreddit]

theorem resolveYears_factPost (years : List Int) :
    ∀ w : Warehouse, (resolveYears w years).1.factPost = w.factPost := by
  induction years with
  | nil =>
    intro w
    rfl
  | cons y rest ih =>
    intro w
    show (resolveYears (insertIgnoreTime w y) rest).1.factPost = w.factPost
    rw [ih (insertIgnoreTime w y), insertIgnoreTime_factPost]

theorem resolveYears_contains_mono (years : List Int) :
    ∀ (w : Warehouse) (z : Int),
      (w.dimTime.map Prod.snd).contains z = true →
      ((resolveYears w years).1.dimTime.map Prod.snd).contains z = true := by
  induction years with
  | nil =>
    intro w z h
    exact h
  | cons y rest ih =>
    intro w z h
    exact ih (insertIgnoreTime w y) z (insertIgnoreTime_contains_mono w y z h)

theorem resolveYears_contains (years : List Int) :
    ∀ (w : Warehouse) (y : Int), y ∈ years →
      ((resolveYears w years).1.dimTime.map Prod.snd).contains y = true := by
  induction years with
  | nil =>
    intro w y h
    cases h
  | cons y0 rest ih =>
    intro w y h
    rcases List.mem_cons.mp h with h | h
    · subst h
      exact resolveYears_contains_mono rest (insertIgnoreTime w y) y
        (insertIgnoreTime_contains_self w y)
    · exact ih (insertIgnoreTime w y0) y h

theorem resolveYears_noop (years : List Int) :
    ∀ w : Warehouse,
      (∀ y ∈ years, (w.dimTime.map Prod.snd).contains y = true) →
      (resolveYears w years).1 = w := by
  induction years with
  | nil =>
    intro w _
    rfl
  | cons y rest ih =>
    intro w h
    show (resolveYears (insertIgnoreTime w y) rest).1 = w
    rw [insertIgnoreTime_noop w y (h y (List.mem_cons_self y rest))]
    exact ih w (fun z hz => h z (List.mem_cons_of_mem y hz))

theorem executemanyFacts_dimSubreddit (fs : List FactRow) :
    ∀ w : Warehouse, (executemanyFacts w fs).1.dimSubreddit = w.dimSubreddit := by
  induction fs with
  | nil =>
    intro w
    rfl
  | cons f fs ih =>
    intro w
    show (executemanyFacts (insertIgnoreFact w f).1 fs).1.dimSubreddit = w.dimSubreddit
    rw [ih (insertIgnoreFact w f).1, insertIgnoreFact_dimSubreddit]

theorem executemanyFacts_dimTime (fs : List FactRow) :
    ∀ w : Warehouse, (executemanyFacts w fs).1.dimTime = w.dimTime := by
  induction fs with
  | nil =>
    intro w
    rfl
  | cons f fs ih =>
    intro w
    show (executemanyFacts (insertIgnoreFact w f).1 fs).1.dimTime = w.dimTime
    rw [ih (insertIgnoreFact w f).1, insertIgnoreFact_dimTime]

theorem executemanyFacts_contains_mono (fs : List FactRow) :
    ∀ (w : Warehouse) (i : String),
      (w.factPost.map FactRow.post_id).contains i = true →
      ((executemanyFacts w fs).1.factPost.map FactRow.post_id).contains i = true := by
  induction fs with
  | nil =>
    intro w i h
    exact h
  | cons f fs ih =>
    intro w i h
    exact ih (insertIgnoreFact w f).1 i (insertIgnoreFact_contains_mono w f i h)

theorem executemanyFacts_contains (fs : List FactRow) :
    ∀ (w : Warehouse) (f : FactRow), f ∈ fs →
      ((executemanyFacts w fs).1.factPost.map FactRow.post_id).contains f.post_id = true := by
  induction fs with
  | nil =>
    intro w f h
    cases h
  | cons f0 fs ih =>
    intro w f h
    rcases List.mem_cons.mp h with h | h
    · subst h
      exact executemanyFacts_contains_mono fs (insertIgnoreFact w f).1 f.post_id
        (insertIgnoreFact_contains_self w f)
    · exact ih (insertIgnoreFact w f0).1 f h

theorem executemanyFacts_noop (fs : List FactRow) :
    ∀ w : Warehouse,
      (∀ f ∈ fs, (w.factPost.map FactRow.post_id).contains f.post_id = true) →
      executemanyFacts w fs = (w, 0) := by
  induction fs with
  | nil =>
    intro w _
    rfl
  | cons f fs ih =>
    intro w h
    show (let r := insertIgnoreFact w f
          let rest := executemanyFacts r.1 fs
          (rest.1, (if r.2 then 1 else 0) + rest.2)) = (w, 0)
    rw [show insertIgnoreFact w f = (w, false) from
      insertIgnoreFact_noop w f (h f (List.mem_cons_self f fs))]
    show ((executemanyFacts w fs).1, (if false then 1 else 0) + (executemanyFacts w fs).2) = (w, 0)
    rw [ih w (fun g hg => h g (List.mem_cons_of_mem f hg))]
    rfl

end RedditETL

namespace RedditETL

theorem mkFactRow_post_id (smap : List (String × Nat)) (ymap : List (Int × Nat))
    (e : EnrichedPost) : (mkFactRow smap ymap e).post_id = e.id := rfl

theorem loadBatch_reload (w0 : Warehouse) (batch : List EnrichedPost) :
    loadBatch (loadBatch w0 batch).1 batch = ((loadBatch w0 batch).1, 0) := by
  have hU : (loadBatch w0 batch).1.dimSubreddit
      = (resolveSubreddits w0 (seriesUnique (batch.map EnrichedPost.subreddit))).1.dimSubreddit := by
    simp only [loadBatch]
    rw [executemanyFacts_dimSubreddit, resolveYears_dimSubreddit]
  have hY : (loadBatch w0 batch).1.dimTime
      = (resolveYears
          (resolveSubreddits w0 (seriesUnique (batch.map EnrichedPost.subreddit))).1
          (seriesUnique (batch.map EnrichedPost.year))).1.dimTime := by
    simp only [loadBatch]
    rw [executemanyFacts_dimTime]
  have hSub : ∀ n ∈ seriesUnique (batch.map EnrichedPost.subreddit),
      ((loadBatch w0 batch).1.dimSubreddit.map Prod.snd).contains n = true := by
    intro n hn
    rw [hU]
    exact resolveSubreddits_contains _ w0 n hn
  have hYear : ∀ y ∈ seriesUnique (batch.map EnrichedPost.year),
      ((loadBatch w0 batch).1.dimTime.map Prod.snd).contains y = true := by
    intro y hy
    rw [hY]
    exact resolveYears_contains _ _ y hy
  have hFact : ∀ e ∈ batch,
      ((loadBatch w0 batch).1.factPost.map FactRow.post_id).contains e.id = true := by
    intro e he
    show ((loadBatch w0 batch).1.factPost.map FactRow.post_id).contains e.id = true
    have hmem : mkFactRow
        (resolveSubreddits w0 (seriesUnique (batch.map EnrichedPost.subreddit))).2
        (resolveYears
          (resolveSubreddits w0 (seriesUnique (batch.map EnrichedPost.subreddit))).1
          (seriesUnique (batch.map EnrichedPost.year))).2 e
        ∈ batch.map (mkFactRow
            (resolveSubreddits w0 (seriesUnique (batch.map EnrichedPost.subreddit))).2
            (resolveYears
              (resolveSubreddits w0 (seriesUnique (batch.map EnrichedPost.subreddit))).1
              (seriesUnique (batch.map EnrichedPost.year))).2) :=
      List.mem_map_of_mem _ he
    have h := executemanyFacts_contains _
      (resolveYears
        (resolveSubreddits w0 (seriesUnique (batch.map EnrichedPost.subreddit))).1
        (seriesUnique (batch.map EnrichedPost.year))).1 _ hmem
    rw [mkFactRow_post_id] at h
    exact h
  conv_lhs => rw [show loadBatch (loadBatch w0 batch).1 batch
    = executemanyFacts
        (resolveYears
          (resolveSubreddits (loadBatch w0 batch).1
            (seriesUnique (batch.map EnrichedPost.subreddit))).1
          (seriesUnique (batch.map EnrichedPost.year))).1
        (batch.map (mkFactRow
          (resolveSubreddits (loadBatch w0 batch).1
            (seriesUnique (batch.map EnrichedPost.subreddit))).2
          (resolveYears
            (resolveSubreddits (loadBatch w0 batch).1
              (seriesUnique (batch.map EnrichedPost.subreddit))).1
            (seriesUnique (batch.map EnrichedPost.year))).2)) from rfl]
  rw [resolveSubreddits_noop _ _ hSub, resolveYears_noop _ _ hYear]
  apply executemanyFacts_noop
  intro f hf
  obtain ⟨e, he, rfl⟩ := List.mem_map.mp hf
  rw [mkFactRow_post_id]
  exact hFact e he

/-- C1: re-running the load over a warehouse that already contains the batch
is a no-op — the dimension `INSERT IGNORE` loops insert nothing, the bulk
fact `INSERT IGNORE` inserts zero rows, and the reported insert count is 0;
in particular running the pipeline twice from the same empty warehouse
leaves exactly the same number of `FactPost` rows as running it once. -/
theorem load_idempotent (w0 : Warehouse) (batch : List EnrichedPost) :
    loadBatch (loadBatch w0 batch).1 batch = ((loadBatch w0 batch).1, 0)
    ∧ (loadBatch (loadBatch emptyWarehouse batch).1 batch).1.factPost.length
        = (loadBatch emptyWarehouse batch).1.factPost.length := by
  refine ⟨loadBatch_reload w0 batch, ?_⟩
  rw [loadBatch_reload emptyWarehouse batch]

end RedditETL

namespace RedditETL

/-! ### Alphabet and trimming invariants of `clean_text` -/

theorem subClean_all (fuel : Nat) :
    ∀ l : List Char, ((subClean fuel l).all (fun c => c.isAlpha || isPySpace c)) = true := by
  induction fuel with
  | zero =>
    intro l
    rfl
  | succ fuel ih =>
    intro l
    cases hm : matchURL l with
    | some rest =>
      have hstep : subClean (fuel + 1) l = subClean fuel rest := by
        simp only [subClean, hm]
      rw [hstep]
      exact ih rest
    | none =>
      cases l with
      | nil => simp [subClean, hm]
      | cons c cs =>
        have hstep : subClean (fuel + 1) (c :: cs)
            = if c.isAlpha || isPySpace c then c :: subClean fuel cs
              else subClean fuel cs := by
          simp only [subClean, hm]
        rw [hstep]
        by_cases hc : (c.isAlpha || isPySpace c) = true
        · rw [if_pos hc, List.all_cons, hc, Bool.true_and]
          exact ih cs
        · rw [if_neg hc]
          exact ih cs

theorem charOk_toLower {c : Char} (h : (c.isAlpha || isPySpace c) = true) :
    (c.toLower.isLower || isPySpace c.toLower) = true := by
  rw [Bool.or_eq_true] at h ⊢
  rcases h with h | h
  · simp only [Char.isAlpha, Bool.or_eq_true] at h
    rcases h with h | h
    · exact Or.inl (isLower_toLower_of_isUpper h)
    · have hno : c.isUpper = false := by
        cases hu : c.isUpper
        · rfl
        · exfalso
          rw [isUpper_iff_toNat] at hu
          rw [isLower_iff_toNat] at h
          omega
      rw [toLower_of_not_upper hno]
      exact Or.inl h
  · rw [toLower_of_isPySpace h]
    exact Or.inr h

theorem pyLower_all (l : List Char)
    (h : (l.all (fun c => c.isAlpha || isPySpace c)) = true) :
    ((pyLower l).all (fun c => c.isLower || isPySpace c)) = true := by
  rw [List.all_eq_true] at h ⊢
  intro x hx
  rw [pyLower, List.mem_map] at hx
  obtain ⟨c, hc, rfl⟩ := hx
  exact charOk_toLower (h c hc)

theorem pyStrip_subset (l : List Char) {x : Char} (hx : x ∈ pyStrip l) : x ∈ l := by
  unfold pyStrip at hx
  rw [List.mem_reverse] at hx
  have h1 := (List.dropWhile_suffix (l := (l.dropWhile isPySpace).reverse)
    isPySpace).sublist.subset hx
  rw [List.mem_reverse] at h1
  exact (List.dropWhile_suffix isPySpace).sublist.subset h1

theorem pyStrip_all (q : Char → Bool) (l : List Char)
    (h : (l.all q) = true) : ((pyStrip l).all q) = true := by
  rw [List.all_eq_true] at h ⊢
  intro x hx
  exact h x (pyStrip_subset l hx)

theorem head?_dropWhile_not (p : Char → Bool) (l : List Char) :
    ((l.dropWhile p).head?.all (fun c => !p c)) = true := by
  induction l with
  | nil => rfl
  | cons a l ih =>
    rw [List.dropWhile_cons]
    by_cases ha : p a = true
    · rw [if_pos ha]
      exact ih
    · rw [if_neg ha]
      show (!p a) = true
      cases hpa : p a
      · rfl
      · exact absurd hpa ha

theorem getLast?_dropWhile_of_ne_nil (p : Char → Bool) (l : List Char)
    (h : l.dropWhile p ≠ []) : (l.dropWhile p).getLast? = l.getLast? := by
  obtain ⟨t, ht⟩ := List.dropWhile_suffix (l := l) p
  conv_rhs => rw [← ht]
  rw [List.getLast?_append_of_ne_nil t h]

theorem pyStrip_head? (l : List Char) :
    ((pyStrip l).head?.all (fun c => !isPySpace c)) = true := by
  unfold pyStrip
  rw [List.head?_reverse]
  by_cases hb : ((l.dropWhile isPySpace).reverse.dropWhile isPySpace) = []
  · rw [hb]
    rfl
  · rw [getLast?_dropWhile_of_ne_nil isPySpace _ hb, List.getLast?_reverse]
    exact head?_dropWhile_not isPySpace l

theorem pyStrip_getLast? (l : List Char) :
    ((pyStrip l).getLast?.all (fun c => !isPySpace c)) = true := by
  unfold pyStrip
  rw [List.getLast?_reverse]
  exact head?_dropWhile_not isPySpace (l.dropWhile isPySpace).reverse

/-- C9: for every input string, the cleaned text consists solely of
lower-case ASCII letters and whitespace, and carries no leading or trailing
whitespace — every downstream consumer (sentiment analysis, mention
matching, the warehouse content column) receives text over that restricted
alphabet. -/
theorem clean_text_alphabet (s : String) :
    ((clean_text s).data.all (fun c => c.isLower || isPySpace c)) = true
    ∧ ((clean_text s).data.head?.all (fun c => !isPySpace c)) = true
    ∧ ((clean_text s).data.getLast?.all (fun c => !isPySpace c)) = true := by
  have hdata : (clean_text s).data = pyStrip (pyLower (subClean s.data.length s.data)) := rfl
  rw [hdata]
  exact ⟨pyStrip_all _ _ (pyLower_all _ (subClean_all _ _)),
    pyStrip_head? _, pyStrip_getLast? _⟩

end RedditETL

namespace RedditETL

/-! ### Witnesses: the universal theorems evaluated at concrete inputs -/

/-- C1 witness: reloading a singleton batch into the warehouse it was just
loaded into inserts nothing and reports zero. -/
theorem load_idempotent_witness :
    loadBatch
        (loadBatch emptyWarehouse
          [⟨"p1", "students drop out", 0.2, "positive", true, 2023, "http://u", "Philippines"⟩]).1
        [⟨"p1", "students drop out", 0.2, "positive", true, 2023, "http://u", "Philippines"⟩]
      = ((loadBatch emptyWarehouse
          [⟨"p1", "students drop out", 0.2, "positive", true, 2023, "http://u", "Philippines"⟩]).1, 0) :=
  (load_idempotent emptyWarehouse
    [⟨"p1", "students drop out", 0.2, "positive", true, 2023, "http://u", "Philippines"⟩]).1

/-- C2 witness: an identifier yielded by two different query pairs is
counted exactly once in the collected batch. -/
theorem collector_dedup_witness :
    "a" ∈ (([⟨[⟨"a", "t1", ⟨2023⟩, "u1", "Philippines"⟩,
              ⟨"b", "t2", ⟨2023⟩, "u2", "Philippines"⟩], false⟩,
            ⟨[⟨"a", "t1", ⟨2023⟩, "u1", "studentsph"⟩], false⟩].map
              QueryOutcome.yielded).flatten).map RawPost.id
    ∧ ((collect [⟨[⟨"a", "t1", ⟨2023⟩, "u1", "Philippines"⟩,
                   ⟨"b", "t2", ⟨2023⟩, "u2", "Philippines"⟩], false⟩,
                 ⟨[⟨"a", "t1", ⟨2023⟩, "u1", "studentsph"⟩], false⟩]).posts.map
        RawPost.id).count "a" = 1 :=
  ⟨by decide,
    (collector_dedup [⟨[⟨"a", "t1", ⟨2023⟩, "u1", "Philippines"⟩,
        ⟨"b", "t2", ⟨2023⟩, "u2", "Philippines"⟩], false⟩,
      ⟨[⟨"a", "t1", ⟨2023⟩, "u1", "studentsph"⟩], false⟩]).2.2.1 "a" (by decide)⟩

/-- C4 witness: with a non-empty batch, a successful connect and a failing
load, the run still completes with exit status 0. -/
theorem run_error_handling_witness :
    scriptRun (fun _ => 0) [⟨"p1", "text", ⟨2023⟩, "u", "Philippines"⟩]
        { connectOk := true, loadFails := true }
      = RunOutcome.completed 0 :=
  (run_error_handling (fun _ => 0) ⟨"p1", "text", ⟨2023⟩, "u", "Philippines"⟩ [] true).1

/-- C7 witness: the characterization applied at a mixed-case hyphenated
input, discharging the pattern-containment side concretely. -/
theorem dropout_mention_witness :
    dropout_mentioned "Why students Drop-Out" = true :=
  (dropout_mention_spec.1 "Why students Drop-Out").mpr
    (Or.inr (Or.inl ⟨'-', by decide, by decide⟩))

/-- C8 witness: the failure-isolation theorem instantiated on a three-pair
run whose middle pair fails. -/
theorem collector_failure_isolated_witness :
    collect ([⟨[⟨"a", "t1", ⟨2023⟩, "u1", "Philippines"⟩], false⟩]
        ++ ⟨[⟨"b", "t2", ⟨2023⟩, "u2", "AskPH"⟩], true⟩
          :: [⟨[⟨"c", "t3", ⟨2024⟩, "u3", "Pinoy"⟩], false⟩])
      = [⟨[⟨"c", "t3", ⟨2024⟩, "u3", "Pinoy"⟩], false⟩].foldl processPair
          (processPair (collect [⟨[⟨"a", "t1", ⟨2023⟩, "u1", "Philippines"⟩], false⟩])
            ⟨[⟨"b", "t2", ⟨2023⟩, "u2", "AskPH"⟩], true⟩) :=
  (collector_failure_isolated [⟨[⟨"a", "t1", ⟨2023⟩, "u1", "Philippines"⟩], false⟩]
    ⟨[⟨"b", "t2", ⟨2023⟩, "u2", "AskPH"⟩], true⟩
    [⟨[⟨"c", "t3", ⟨2024⟩, "u3", "Pinoy"⟩], false⟩]).1

/-- C9 witness: the alphabet invariant evaluated on a concrete messy input. -/
theorem clean_text_alphabet_witness :
    ((clean_text "  Ab1 http://x !e  ").data.all
      (fun c => c.isLower || isPySpace c)) = true :=
  (clean_text_alphabet "  Ab1 http://x !e  ").1

end RedditETL
